import Mathlib

/-!
# Verification of the crime-report backend core

Shallow embedding of the session-authentication layer and the auditable
state-machine services of the crime-report backend (`app/dependencies/auth.py`,
`app/services/{auth,audit,report,admin}_service.py`, and the route-level
wrappers in `app/routes/reports.py` that the claims reference).

Modelling conventions:
* UUID primary keys become `Nat` ids; report ids are allocated from a
  `next_id` counter in the database state (the source uses `uuid4`, whose
  only relevant property is freshness).
* `datetime` values become `Int` instants; `datetime.now(timezone.utc)` is an
  explicit `now` parameter.
* The database is an explicit record of tables (lists in insertion order,
  matching the `created_at asc` ordering the history route uses).
* Every `await db.commit()` in the source is one durable transaction
  boundary.  A service call is therefore modelled as a `TxnResult`: its
  Python return value (or raised `HTTPException`) together with the ordered
  list of durable snapshots, one per executed `commit()`.
  `create_audit_log` commits internally, so the states it produces appear as
  separate entries in `commits`.
* Diagnostic-only pass-through fields (`ip_address`, `user_agent`, the JSON
  `details` payload of audit rows, `location`/`incident_date` of reports,
  and `created_at` timestamps not observed by any claim) are omitted; no
  claim mentions them and no control flow depends on them.
* SQLAlchemy row mutation on a fetched ORM object is modelled by replacing
  every row with the matching (unique-keyed) id in the table; session tokens
  and row ids are unique-constrained columns, so this is the same update.
-/

/-- `UserRole` enum from `app/models/user.py`. -/
inductive UserRole where
  | USER
  | ADMIN
  | SUPER_ADMIN
deriving DecidableEq, Repr

/-- `ReportStatus` enum from `app/models/crime_report.py`. -/
inductive ReportStatus where
  | NEW
  | ASSIGNED
  | INVESTIGATING
  | RESOLVED
  | CLOSED
deriving DecidableEq, Repr

/-- `ReportPriority` enum from `app/models/crime_report.py`. -/
inductive ReportPriority where
  | LOW
  | MEDIUM
  | HIGH
  | CRITICAL
deriving DecidableEq, Repr

/-- `AdminRequestStatus` enum from `app/models/admin_request.py`. -/
inductive AdminRequestStatus where
  | PENDING
  | APPROVED
  | REJECTED
deriving DecidableEq, Repr

/-- `User` row (`app/models/user.py`). -/
structure User where
  id : Nat
  email : String
  role : UserRole
  is_active : Bool
  is_locked : Bool
deriving DecidableEq, Repr

/-- `Session` row (`app/models/session.py`).  `user_id` has a foreign-key
constraint onto `users.id`. -/
structure Session where
  session_token : String
  user_id : Nat
  expires_at : Int
  is_valid : Bool
deriving DecidableEq, Repr

/-- `CrimeReport` row (`app/models/crime_report.py`). -/
structure CrimeReport where
  id : Nat
  title : String
  description : String
  user_id : Nat
  status : ReportStatus
  priority : ReportPriority
  admin_notes : Option String
  is_deleted : Bool
  deleted_at : Option Int
  updated_at : Int
deriving DecidableEq, Repr

/-- `ReportStatusHistory` row (`app/models/report_status_history.py`). -/
structure ReportStatusHistory where
  report_id : Nat
  old_status : Option ReportStatus
  new_status : ReportStatus
  changed_by : Nat
  notes : Option String
deriving DecidableEq, Repr

/-- `AdminRequest` row (`app/models/admin_request.py`). -/
structure AdminRequest where
  id : Nat
  user_id : Nat
  status : AdminRequestStatus
  request_reason : Option String
  approved_by : Option Nat
  admin_notes : Option String
  resolved_at : Option Int
deriving DecidableEq, Repr

/-- `AuditLog` row (`app/models/audit_log.py`), diagnostic payload omitted. -/
structure AuditLog where
  actor_id : Option Nat
  action : String
  resource_type : Option String
  resource_id : Option Nat
deriving DecidableEq, Repr

/-- `fastapi.HTTPException`: an HTTP status code plus a detail message. -/
structure HTTPException where
  status : Nat
  detail : String
deriving DecidableEq, Repr

/-- The transactional store: one list per table, in insertion order, plus the
id allocator for new rows. -/
structure DB where
  users : List User
  sessions : List Session
  reports : List CrimeReport
  history : List ReportStatusHistory
  admin_requests : List AdminRequest
  audit_logs : List AuditLog
  next_id : Nat
deriving DecidableEq, Repr

deriving instance DecidableEq for Except

/-- Outcome of one service call: the returned value or raised
`HTTPException`, together with the durable snapshot produced by each
`db.commit()` the call executed, in order. -/
structure TxnResult (α : Type) where
  result : Except HTTPException α
  commits : List DB

/-- The state the store is left in after a call: the last committed snapshot,
or the initial state when the call committed nothing. -/
def finalState (db : DB) (t : TxnResult α) : DB :=
  t.commits.getLast?.getD db

/-- `select(Session).where(Session.session_token == token)` with
`scalar_one_or_none()`; `session_token` is unique-indexed. -/
def findSession (db : DB) (token : String) : Option Session :=
  db.sessions.find? (fun s => s.session_token == token)

/-- `select(User).where(User.id == user_id)` with `scalar_one_or_none()`. -/
def findUser (db : DB) (user_id : Nat) : Option User :=
  db.users.find? (fun u => u.id == user_id)

/-- `select(AdminRequest).where(AdminRequest.id == request_id)` with
`scalar_one_or_none()`. -/
def findRequest (db : DB) (request_id : Nat) : Option AdminRequest :=
  db.admin_requests.find? (fun r => r.id == request_id)

/-- Row lookup by primary key on the reports table, soft-deleted rows
included (used to state invariants; the service-level lookup is
`get_report_by_id` below). -/
def findReportAny (db : DB) (report_id : Nat) : Option CrimeReport :=
  db.reports.find? (fun r => r.id == report_id)

/-- `report_service.get_report_by_id`: lookup by id excluding soft-deleted
rows. -/
def get_report_by_id (db : DB) (report_id : Nat) : Option CrimeReport :=
  db.reports.find? (fun r => r.id == report_id && r.is_deleted == false)

/-- The `ReportStatusHistory` rows of one report in creation order
(`order_by(created_at.asc())`, i.e. insertion order of the table). -/
def historyOf (db : DB) (report_id : Nat) : List ReportStatusHistory :=
  db.history.filter (fun h => h.report_id == report_id)

/-- In-place ORM mutation of a fetched row, keyed by the unique id. -/
def updateUserRow (users : List User) (u : User) : List User :=
  users.map (fun r => if r.id == u.id then u else r)

/-- In-place ORM mutation of a fetched report row, keyed by the unique id. -/
def updateReportRow (reports : List CrimeReport) (r : CrimeReport) :
    List CrimeReport :=
  reports.map (fun x => if x.id == r.id then r else x)

/-- In-place ORM mutation of a fetched admin-request row. -/
def updateRequestRow (reqs : List AdminRequest) (q : AdminRequest) :
    List AdminRequest :=
  reqs.map (fun x => if x.id == q.id then q else x)

/-- `audit_service.create_audit_log`: appends one audit row and commits.
Returns the row and the committed state; callers record that state as one
entry of their `commits` list. -/
def create_audit_log (db : DB) (actor_id : Option Nat) (action : String)
    (resource_type : Option String) (resource_id : Option Nat) :
    AuditLog × DB :=
  let audit_log : AuditLog :=
    { actor_id := actor_id, action := action,
      resource_type := resource_type, resource_id := resource_id }
  (audit_log, { db with audit_logs := db.audit_logs ++ [audit_log] })

/-- Helper for `pySplit`: consume the characters, flushing the (reversed)
pending word at each space. -/
def splitWSAux : List Char → List Char → List String
  | [], acc => if acc = [] then [] else [String.mk acc.reverse]
  | c :: cs, acc =>
    if c = ' ' then
      (if acc = [] then [] else [String.mk acc.reverse]) ++ splitWSAux cs []
    else
      splitWSAux cs (c :: acc)

/-- Python's `str.split()`: split on whitespace runs, dropping empties
(header values only contain spaces as separators). -/
def pySplit (s : String) : List String :=
  splitWSAux s.toList []

/-- Python's `str.lower()` (ASCII header schemes only). -/
def strToLower (s : String) : String :=
  String.mk (s.toList.map Char.toLower)

/-- `app/dependencies/auth.py::get_current_user`: resolve the bearer token
to its owning user.  Read-only: it executes no `db.add`/`db.commit`, so it
is a pure function of the store. -/
def get_current_user (db : DB) (authorization : Option String) (now : Int) :
    Except HTTPException User :=
  match authorization with
  | none => .error ⟨401, "Not authenticated"⟩
  | some auth =>
    match pySplit auth with
    | [scheme, session_token] =>
      if strToLower scheme ≠ "bearer" then
        .error ⟨401, "Invalid authentication credentials"⟩
      else
        match findSession db session_token with
        | none => .error ⟨401, "Invalid or expired session token"⟩
        | some session =>
          if session.is_valid = false then
            .error ⟨401, "Session has been invalidated"⟩
          else if session.expires_at < now then
            .error ⟨401, "Session has expired"⟩
          else
            match findUser db session.user_id with
            | none => .error ⟨401, "User not found"⟩
            | some user =>
              if user.is_active = false then
                .error ⟨403, "Account is inactive"⟩
              else if user.is_locked then
                .error ⟨403, "Account is locked"⟩
              else
                .ok user
    | _ => .error ⟨401, "Invalid authentication credentials"⟩

/-- The token of a well-formed `Bearer` header, `none` when the header is
malformed (spec: "malformed bearer header"); same parse as the source. -/
def bearerToken (auth : String) : Option String :=
  match pySplit auth with
  | [scheme, token] => if strToLower scheme = "bearer" then some token else none
  | _ => none

/-- `report_service.create_report`: insert the report (initial status `NEW`)
together with its creation history row, commit, then write the audit row
(which commits separately inside `create_audit_log`). -/
def create_report (db : DB) (user : User) (title description : String)
    (priority : ReportPriority) (now : Int) : TxnResult CrimeReport :=
  let report : CrimeReport :=
    { id := db.next_id, title := title, description := description,
      user_id := user.id, status := .NEW, priority := priority,
      admin_notes := none, is_deleted := false, deleted_at := none,
      updated_at := now }
  let history : ReportStatusHistory :=
    { report_id := report.id, old_status := none, new_status := .NEW,
      changed_by := user.id, notes := none }
  let db1 : DB :=
    { db with reports := db.reports ++ [report],
              history := db.history ++ [history],
              next_id := db.next_id + 1 }
  let (_, db2) := create_audit_log db1 (some user.id) "REPORT_CREATED"
      (some "CRIME_REPORT") (some report.id)
  ⟨.ok report, [db1, db2]⟩

/-- `report_service.update_report_status`: set the new status on the fetched
report, append the history row, commit; then the audit row commits on its
own. -/
def update_report_status (db : DB) (report : CrimeReport)
    (new_status : ReportStatus) (changed_by : User) (notes : Option String)
    (now : Int) : TxnResult CrimeReport :=
  let old_status := report.status
  let report' := { report with status := new_status, updated_at := now }
  let history : ReportStatusHistory :=
    { report_id := report.id, old_status := some old_status,
      new_status := new_status, changed_by := changed_by.id, notes := notes }
  let db1 : DB :=
    { db with reports := updateReportRow db.reports report',
              history := db.history ++ [history] }
  let (_, db2) := create_audit_log db1 (some changed_by.id)
      "REPORT_STATUS_CHANGED" (some "CRIME_REPORT") (some report.id)
  ⟨.ok report', [db1, db2]⟩

/-- `report_service.update_report_priority`. -/
def update_report_priority (db : DB) (report : CrimeReport)
    (new_priority : ReportPriority) (changed_by : User) (now : Int) :
    TxnResult CrimeReport :=
  let report' := { report with priority := new_priority, updated_at := now }
  let db1 : DB := { db with reports := updateReportRow db.reports report' }
  let (_, db2) := create_audit_log db1 (some changed_by.id)
      "REPORT_PRIORITY_CHANGED" (some "CRIME_REPORT") (some report.id)
  ⟨.ok report', [db1, db2]⟩

/-- `report_service.update_report_notes`. -/
def update_report_notes (db : DB) (report : CrimeReport)
    (admin_notes : String) (changed_by : User) (now : Int) :
    TxnResult CrimeReport :=
  let report' :=
    { report with admin_notes := some admin_notes, updated_at := now }
  let db1 : DB := { db with reports := updateReportRow db.reports report' }
  let (_, db2) := create_audit_log db1 (some changed_by.id)
      "REPORT_NOTES_UPDATED" (some "CRIME_REPORT") (some report.id)
  ⟨.ok report', [db1, db2]⟩

/-- `report_service.soft_delete_report`: 404 when the row is already
soft-deleted, else mark it deleted and commit; audit row commits after. -/
def soft_delete_report (db : DB) (report : CrimeReport) (deleted_by : User)
    (now : Int) : TxnResult Unit :=
  if report.is_deleted then
    ⟨.error ⟨404, "Report not found or already deleted"⟩, []⟩
  else
    let report' := { report with is_deleted := true, deleted_at := some now }
    let db1 : DB := { db with reports := updateReportRow db.reports report' }
    let (_, db2) := create_audit_log db1 (some deleted_by.id)
        "REPORT_DELETED" (some "CRIME_REPORT") (some report.id)
    ⟨.ok (), [db1, db2]⟩

/-- `routes/reports.py::get_report_history`: resolve the report through
`get_report_by_id` (404 when absent or soft-deleted), check owner/admin
access, then return the report's history rows in `created_at asc` order.
(The per-row join loading each changer's user row only decorates the
response and is omitted.) -/
def get_report_history (db : DB) (report_id : Nat) (current_user : User) :
    Except HTTPException (List ReportStatusHistory) :=
  match get_report_by_id db report_id with
  | none => .error ⟨404, "Report not found"⟩
  | some report =>
    let is_admin :=
      current_user.role = UserRole.ADMIN ∨
        current_user.role = UserRole.SUPER_ADMIN
    let is_owner := report.user_id = current_user.id
    if ¬is_admin ∧ ¬is_owner then
      .error ⟨403, "Insufficient permissions to view this report's history"⟩
    else
      .ok (historyOf db report_id)

/-- `admin_service.create_admin_request`. -/
def create_admin_request (db : DB) (user : User)
    (request_reason : Option String) : TxnResult AdminRequest :=
  if user.role = .ADMIN ∨ user.role = .SUPER_ADMIN then
    ⟨.error ⟨403, "User already has admin privileges"⟩, []⟩
  else
    match db.admin_requests.find?
        (fun r => r.user_id == user.id && r.status == .PENDING) with
    | some _ => ⟨.error ⟨400, "User already has pending admin request"⟩, []⟩
    | none =>
      let admin_request : AdminRequest :=
        { id := db.next_id, user_id := user.id, status := .PENDING,
          request_reason := request_reason, approved_by := none,
          admin_notes := none, resolved_at := none }
      let db1 : DB :=
        { db with admin_requests := db.admin_requests ++ [admin_request],
                  next_id := db.next_id + 1 }
      let (_, db2) := create_audit_log db1 (some user.id) "ADMIN_REQUESTED"
          (some "ADMIN_REQUEST") (some admin_request.id)
      ⟨.ok admin_request, [db1, db2]⟩

/-- `admin_service.approve_admin_request`: one commit covers both the
request resolution and the requester's promotion to `ADMIN`; the audit row
commits afterwards on its own. -/
def approve_admin_request (db : DB) (request_id : Nat) (approved_by : User)
    (admin_notes : Option String) (now : Int) : TxnResult AdminRequest :=
  match findRequest db request_id with
  | none => ⟨.error ⟨404, "Admin request not found"⟩, []⟩
  | some admin_request =>
    if admin_request.status ≠ .PENDING then
      ⟨.error ⟨400, "Request already resolved"⟩, []⟩
    else
      match findUser db admin_request.user_id with
      | none => ⟨.error ⟨404, "User not found"⟩, []⟩
      | some user =>
        let admin_request' :=
          { admin_request with
            status := .APPROVED, approved_by := some approved_by.id,
            admin_notes := admin_notes, resolved_at := some now }
        let user' := { user with role := .ADMIN }
        let db1 : DB :=
          { db with
            admin_requests := updateRequestRow db.admin_requests admin_request',
            users := updateUserRow db.users user' }
        let (_, db2) := create_audit_log db1 (some approved_by.id)
            "ADMIN_APPROVED" (some "ADMIN_REQUEST") (some admin_request.id)
        ⟨.ok admin_request', [db1, db2]⟩

/-- `admin_service.reject_admin_request`: resolves the request (recording
the resolver in `approved_by`); the users table is not touched. -/
def reject_admin_request (db : DB) (request_id : Nat) (rejected_by : User)
    (admin_notes : Option String) (now : Int) : TxnResult AdminRequest :=
  match findRequest db request_id with
  | none => ⟨.error ⟨404, "Admin request not found"⟩, []⟩
  | some admin_request =>
    if admin_request.status ≠ .PENDING then
      ⟨.error ⟨400, "Request already resolved"⟩, []⟩
    else
      let admin_request' :=
        { admin_request with
          status := .REJECTED, approved_by := some rejected_by.id,
          admin_notes := admin_notes, resolved_at := some now }
      let db1 : DB :=
        { db with
          admin_requests := updateRequestRow db.admin_requests admin_request' }
      let (_, db2) := create_audit_log db1 (some rejected_by.id)
          "ADMIN_REJECTED" (some "ADMIN_REQUEST") (some admin_request.id)
      ⟨.ok admin_request', [db1, db2]⟩

/-- `admin_service.revoke_admin_role`. -/
def revoke_admin_role (db : DB) (user_id : Nat) (revoked_by : User) :
    TxnResult User :=
  match findUser db user_id with
  | none => ⟨.error ⟨404, "User not found"⟩, []⟩
  | some user =>
    if user.role ≠ .ADMIN then
      ⟨.error ⟨400, "User is not an Admin"⟩, []⟩
    else
      let user' := { user with role := .USER }
      let db1 : DB := { db with users := updateUserRow db.users user' }
      let (_, db2) := create_audit_log db1 (some revoked_by.id)
          "ADMIN_REVOKED" (some "USER") (some user.id)
      ⟨.ok user', [db1, db2]⟩

/-- `admin_service.lock_user`: SUPER_ADMIN accounts are never lockable, and
locking an already-locked account is rejected; both checks precede any
write. -/
def lock_user (db : DB) (user_id : Nat) (locked_by : User) :
    TxnResult User :=
  match findUser db user_id with
  | none => ⟨.error ⟨404, "User not found"⟩, []⟩
  | some user =>
    if user.role = .SUPER_ADMIN then
      ⟨.error ⟨400, "Cannot lock SUPER_ADMIN accounts"⟩, []⟩
    else if user.is_locked then
      ⟨.error ⟨400, "Account already locked"⟩, []⟩
    else
      let user' := { user with is_locked := true }
      let db1 : DB := { db with users := updateUserRow db.users user' }
      let (_, db2) := create_audit_log db1 (some locked_by.id) "USER_LOCKED"
          (some "USER") (some user.id)
      ⟨.ok user', [db1, db2]⟩

/-- `admin_service.unlock_user`. -/
def unlock_user (db : DB) (user_id : Nat) (unlocked_by : User) :
    TxnResult User :=
  match findUser db user_id with
  | none => ⟨.error ⟨404, "User not found"⟩, []⟩
  | some user =>
    if user.is_locked = false then
      ⟨.error ⟨400, "Account already unlocked"⟩, []⟩
    else
      let user' := { user with is_locked := false }
      let db1 : DB := { db with users := updateUserRow db.users user' }
      let (_, db2) := create_audit_log db1 (some unlocked_by.id)
          "USER_UNLOCKED" (some "USER") (some user.id)
      ⟨.ok user', [db1, db2]⟩

/-- `auth_service.logout_user`: invalidate the session when it exists and
commit; the audit row is then written unconditionally.  No code path
raises. -/
def logout_user (db : DB) (session_token : String) (user : User) :
    TxnResult Unit :=
  match findSession db session_token with
  | some _ =>
    let db1 : DB :=
      { db with sessions := db.sessions.map (fun s =>
          if s.session_token == session_token then
            { s with is_valid := false }
          else s) }
    let (_, db2) := create_audit_log db1 (some user.id) "USER_LOGOUT"
        (some "USER") (some user.id)
    ⟨.ok (), [db1, db2]⟩
  | none =>
    let (_, db2) := create_audit_log db (some user.id) "USER_LOGOUT"
        (some "USER") (some user.id)
    ⟨.ok (), [db2]⟩

/-! ## Route-level report lifecycle operations

The mutating report routes (`routes/reports.py`) all resolve the target
report through `get_report_by_id` (404 when absent or soft-deleted) before
invoking the service; `ReportOp`/`step` package that flow so that whole
operation sequences can be reasoned about.  A failed resolution leaves the
store unchanged (nothing was committed).  Role checks (`require_admin`)
happen before the service runs and do not touch the store, so they are
orthogonal to the report/history tables modelled here. -/

/-- One inbound report-lifecycle request, with the caller and the request
instant. -/
inductive ReportOp where
  | createOp (user : User) (title description : String)
      (priority : ReportPriority) (now : Int)
  | setStatusOp (report_id : Nat) (new_status : ReportStatus) (actor : User)
      (notes : Option String) (now : Int)
  | setPriorityOp (report_id : Nat) (new_priority : ReportPriority)
      (actor : User) (now : Int)
  | setNotesOp (report_id : Nat) (admin_notes : String) (actor : User)
      (now : Int)
  | softDeleteOp (report_id : Nat) (actor : User) (now : Int)
deriving Repr

/-- Execute one request against the store and keep its final committed
state (route flow: resolve by id, then run the service). -/
def step (db : DB) (op : ReportOp) : DB :=
  match op with
  | .createOp user title description priority now =>
    finalState db (create_report db user title description priority now)
  | .setStatusOp rid new_status actor notes now =>
    match get_report_by_id db rid with
    | none => db
    | some report =>
      finalState db (update_report_status db report new_status actor notes now)
  | .setPriorityOp rid new_priority actor now =>
    match get_report_by_id db rid with
    | none => db
    | some report =>
      finalState db (update_report_priority db report new_priority actor now)
  | .setNotesOp rid admin_notes actor now =>
    match get_report_by_id db rid with
    | none => db
    | some report =>
      finalState db (update_report_notes db report admin_notes actor now)
  | .softDeleteOp rid actor now =>
    match get_report_by_id db rid with
    | none => db
    | some report =>
      finalState db (soft_delete_report db report actor now)

/-- Execute a sequence of requests. -/
def run (db : DB) : List ReportOp → DB
  | [] => db
  | op :: rest => run (step db op) rest

/-- The store before any request: empty tables. -/
def emptyDB : DB :=
  { users := [], sessions := [], reports := [], history := [],
    admin_requests := [], audit_logs := [], next_id := 0 }

/-- Does this request perform a successful `set_status` on report `rid`
when executed in state `db`?  (A `set_status` whose target id does not
resolve fails with 404 and records nothing.) -/
def isSuccSetStatus (db : DB) (op : ReportOp) (rid : Nat) : Bool :=
  match op with
  | .setStatusOp rid' _ _ _ _ =>
    rid' == rid && (get_report_by_id db rid').isSome
  | _ => false

/-- Number of successful `set_status` calls on report `rid` along a
request sequence started in `db`. -/
def succSetStatusCount (db : DB) (tr : List ReportOp) (rid : Nat) : Nat :=
  match tr with
  | [] => 0
  | op :: rest =>
    (if isSuccSetStatus db op rid then 1 else 0)
      + succSetStatusCount (step db op) rest rid

/-- Does this request create a report that is allocated id `rid`? -/
def isCreateAt (db : DB) (op : ReportOp) (rid : Nat) : Bool :=
  match op with
  | .createOp _ _ _ _ _ => db.next_id == rid
  | _ => false

/-- Number of report creations allocated id `rid` along a request
sequence. -/
def createdCount (db : DB) (tr : List ReportOp) (rid : Nat) : Nat :=
  match tr with
  | [] => 0
  | op :: rest =>
    (if isCreateAt db op rid then 1 else 0) + createdCount (step db op) rest rid

/-- The history ledger chains: each entry's `old_status` is the previous
entry's `new_status`. -/
def chainOk : List ReportStatusHistory → Bool
  | [] => true
  | [_] => true
  | a :: b :: rest => b.old_status == some a.new_status && chainOk (b :: rest)

/-- Ledger shape of one report's history: nonempty, opened by the creation
row (`old_status = none`, `new_status = NEW`), chained, and ending at the
report's current status. -/
def ChainFacts (h : List ReportStatusHistory) (status : ReportStatus) : Prop :=
  h ≠ []
    ∧ h.head?.map (fun e => e.old_status) = some none
    ∧ h.head?.map (fun e => e.new_status) = some ReportStatus.NEW
    ∧ chainOk h = true
    ∧ h.getLast?.map (fun e => e.new_status) = some status

/-- Store invariant maintained by every report-lifecycle request: ids are
below the allocator and every report's history ledger is well-shaped. -/
def StoreInv (db : DB) : Prop :=
  (∀ r ∈ db.reports, r.id < db.next_id)
    ∧ (∀ h ∈ db.history, h.report_id < db.next_id)
    ∧ (∀ r ∈ db.reports, ChainFacts (historyOf db r.id) r.status)

/-! ## Concrete fixtures used by witnesses and counterexamples -/

/-- Seeded SUPER_ADMIN account. -/
def superAdminU : User :=
  { id := 1, email := "admin@example.com", role := .SUPER_ADMIN,
    is_active := true, is_locked := false }

/-- Plain citizen account. -/
def aliceU : User :=
  { id := 2, email := "alice@x.com", role := .USER,
    is_active := true, is_locked := false }

/-- Administrator account. -/
def carolU : User :=
  { id := 3, email := "carol@x.com", role := .ADMIN,
    is_active := true, is_locked := false }

/-- A locked citizen account. -/
def lockedU : User :=
  { id := 4, email := "dave@x.com", role := .USER,
    is_active := true, is_locked := true }

/-- A live session for `aliceU`. -/
def sess1 : Session :=
  { session_token := "tok1", user_id := 2, expires_at := 100,
    is_valid := true }

/-- A report filed by `aliceU`. -/
def report1 : CrimeReport :=
  { id := 10, title := "Stolen bike", description := "Bike stolen",
    user_id := 2, status := .NEW, priority := .MEDIUM, admin_notes := none,
    is_deleted := false, deleted_at := none, updated_at := 0 }

/-- The creation history row of `report1`. -/
def hist1 : ReportStatusHistory :=
  { report_id := 10, old_status := none, new_status := .NEW,
    changed_by := 2, notes := none }

/-- A pending admin request by `aliceU`. -/
def pendReq : AdminRequest :=
  { id := 20, user_id := 2, status := .PENDING, request_reason := none,
    approved_by := none, admin_notes := none, resolved_at := none }

/-- Concrete store used by the witnesses and counterexamples. -/
def baseDB : DB :=
  { users := [superAdminU, aliceU, carolU, lockedU],
    sessions := [sess1],
    reports := [report1],
    history := [hist1],
    admin_requests := [pendReq],
    audit_logs := [],
    next_id := 30 }

/-- A valid, unexpired session whose owning user row does not exist. -/
def danglingSess : Session :=
  { session_token := "tok9", user_id := 99, expires_at := 100,
    is_valid := true }

/-- Store variant holding only the dangling session. -/
def danglingDB : DB :=
  { users := [superAdminU, aliceU, carolU, lockedU],
    sessions := [danglingSess],
    reports := [report1],
    history := [hist1],
    admin_requests := [pendReq],
    audit_logs := [],
    next_id := 30 }

/-- A concrete request trace: create a report, set its status twice (the
second transition is a no-op ASSIGNED → ASSIGNED, which is still
recorded). -/
def traceC4 : List ReportOp :=
  [.createOp aliceU "Stolen bike" "Bike stolen" .MEDIUM 0,
   .setStatusOp 0 .ASSIGNED carolU (some "dispatched") 1,
   .setStatusOp 0 .ASSIGNED carolU none 2]

/-- The report produced by `traceC4`. -/
def reportC4 : CrimeReport :=
  { id := 0, title := "Stolen bike", description := "Bike stolen",
    user_id := 2, status := .ASSIGNED, priority := .MEDIUM,
    admin_notes := none, is_deleted := false, deleted_at := none,
    updated_at := 2 }

/-- HTTP status of a failed call, `none` when the call succeeded. -/
def errorStatus (r : Except HTTPException α) : Option Nat :=
  match r with
  | .error e => some e.status
  | .ok _ => none

/-- Spec §4.1: the `Unauthenticated` conditions of `resolve` — header
missing, malformed bearer header, token not found, invalidated session, or
expiry strictly in the past. -/
def UnauthenticatedCond (db : DB) (authorization : Option String)
    (now : Int) : Prop :=
  authorization = none
    ∨ ∃ a, authorization = some a ∧
        (bearerToken a = none
          ∨ ∃ t, bearerToken a = some t ∧
              (findSession db t = none
                ∨ ∃ s, findSession db t = some s ∧
                    (s.is_valid = false ∨ s.expires_at < now)))

/-- Spec §4.1: the `Forbidden` conditions of `resolve` — session resolves
but the owning user is inactive or locked. -/
def ForbiddenCond (db : DB) (authorization : Option String) (now : Int) :
    Prop :=
  ∃ a t s u, authorization = some a ∧ bearerToken a = some t
    ∧ findSession db t = some s ∧ s.is_valid = true ∧ ¬s.expires_at < now
    ∧ findUser db s.user_id = some u
    ∧ (u.is_active = false ∨ u.is_locked = true)

/-- Spec §4.1: successful resolution to the owning user `u`. -/
def ResolvesCond (db : DB) (authorization : Option String) (now : Int)
    (u : User) : Prop :=
  ∃ a t s, authorization = some a ∧ bearerToken a = some t
    ∧ findSession db t = some s ∧ s.is_valid = true ∧ ¬s.expires_at < now
    ∧ findUser db s.user_id = some u ∧ u.is_active = true
    ∧ u.is_locked = false

/-! ## General helper lemmas -/

/-- Updating the unique row found by a key-match query makes the query
return the updated row. -/
theorem find?_update_row {α : Type} (key : α → Nat) (l : List α) (i : Nat)
    (x y : α) (hx : l.find? (fun r => key r == i) = some x)
    (hy : key y = i) :
    (l.map (fun r => if key r == i then y else r)).find?
      (fun r => key r == i) = some y := by
  induction l with
  | nil => simp at hx
  | cons a l ih =>
    by_cases h : key a = i
    · have hb : (key a == i) = true := by simpa using h
      have hyb : (key y == i) = true := by simpa using hy
      simp only [List.map_cons, hb, if_true]
      exact List.find?_cons_of_pos _ hyb
    · have hb : (key a == i) = false := by simpa using h
      simp only [List.map_cons, hb, Bool.false_eq_true, if_false]
      rw [List.find?_cons_of_neg _ (by simp [hb])]
      rw [List.find?_cons_of_neg _ (by simp [hb])] at hx
      exact ih hx

/-! ## Claims -/

/-- C8: for every user whose role is SUPER_ADMIN, `lock_user` always fails
with `BadRequest` (HTTP 400) and commits nothing, so the user's `is_locked`
flag is unchanged: the SUPER_ADMIN role is immune to lockout. -/
theorem C8_lock_super_admin_fails (db : DB) (user_id : Nat)
    (locked_by u : User) (hu : findUser db user_id = some u)
    (hrole : u.role = UserRole.SUPER_ADMIN) :
    (lock_user db user_id locked_by).result
        = .error ⟨400, "Cannot lock SUPER_ADMIN accounts"⟩
      ∧ finalState db (lock_user db user_id locked_by) = db := by
  constructor
  · simp [lock_user, hu, hrole]
  · simp [lock_user, hu, hrole, finalState]

/-- C8 witness: locking the seeded SUPER_ADMIN account of the concrete
store fails with 400 and leaves the store untouched. -/
theorem C8_lock_super_admin_fails_witness :
    (lock_user baseDB 1 carolU).result
        = .error ⟨400, "Cannot lock SUPER_ADMIN accounts"⟩
      ∧ finalState baseDB (lock_user baseDB 1 carolU) = baseDB :=
  C8_lock_super_admin_fails baseDB 1 carolU superAdminU (by decide) (by decide)

/-- C2 counterexample: the claim says a no-op lock fails with `Conflict`
(HTTP 409); on the concrete store, locking the already-locked account fails
with HTTP 400 (`BadRequest`), not 409.  (The codebase does use 409
elsewhere — duplicate email at registration — so the two classes are
distinct in it.) -/
theorem C2_conflict_counterexample :
    errorStatus (lock_user baseDB 4 superAdminU).result = some 400
      ∧ errorStatus (lock_user baseDB 4 superAdminU).result ≠ some 409 := by
  constructor
  · decide
  · decide

/-- C2 amended: every precondition failure the claim lists — duplicate
pending admin request, approving or rejecting a non-PENDING request, no-op
lock or unlock, revoking a non-ADMIN — fails, but with HTTP 400
(`BadRequest`), not 409 (`Conflict`). -/
theorem C2_precondition_failures_are_400 :
    (∀ (db : DB) (user : User) (reason : Option String),
      user.role = UserRole.USER →
      (db.admin_requests.find? (fun r =>
          r.user_id == user.id && r.status == AdminRequestStatus.PENDING)).isSome →
      errorStatus (create_admin_request db user reason).result = some 400)
    ∧ (∀ (db : DB) (request_id : Nat) (approver : User)
        (notes : Option String) (now : Int) (rq : AdminRequest),
      findRequest db request_id = some rq →
      rq.status ≠ AdminRequestStatus.PENDING →
      errorStatus (approve_admin_request db request_id approver notes now).result
        = some 400)
    ∧ (∀ (db : DB) (request_id : Nat) (rejecter : User)
        (notes : Option String) (now : Int) (rq : AdminRequest),
      findRequest db request_id = some rq →
      rq.status ≠ AdminRequestStatus.PENDING →
      errorStatus (reject_admin_request db request_id rejecter notes now).result
        = some 400)
    ∧ (∀ (db : DB) (user_id : Nat) (locked_by u : User),
      findUser db user_id = some u → u.role ≠ UserRole.SUPER_ADMIN →
      u.is_locked = true →
      errorStatus (lock_user db user_id locked_by).result = some 400)
    ∧ (∀ (db : DB) (user_id : Nat) (unlocked_by u : User),
      findUser db user_id = some u → u.is_locked = false →
      errorStatus (unlock_user db user_id unlocked_by).result = some 400)
    ∧ (∀ (db : DB) (user_id : Nat) (revoked_by u : User),
      findUser db user_id = some u → u.role ≠ UserRole.ADMIN →
      errorStatus (revoke_admin_role db user_id revoked_by).result = some 400) := by
  refine ⟨?_, ?_, ?_, ?_, ?_, ?_⟩
  · intro db user reason hrole hpend
    rcases Option.isSome_iff_exists.mp hpend with ⟨rq, hrq⟩
    simp [create_admin_request, hrole, hrq, errorStatus]
  · intro db request_id approver notes now rq hrq hst
    simp [approve_admin_request, hrq, hst, errorStatus]
  · intro db request_id rejecter notes now rq hrq hst
    simp [reject_admin_request, hrq, hst, errorStatus]
  · intro db user_id locked_by u hu hrole hlocked
    simp [lock_user, hu, hrole, hlocked, errorStatus]
  · intro db user_id unlocked_by u hu hunlocked
    simp [unlock_user, hu, hunlocked, errorStatus]
  · intro db user_id revoked_by u hu hrole
    simp [revoke_admin_role, hu, hrole, errorStatus]

/-- C2 witness: the amended theorem applied to the concrete store — a
duplicate pending request by `aliceU` is rejected with HTTP 400. -/
theorem C2_precondition_failures_witness :
    errorStatus (create_admin_request baseDB aliceU none).result = some 400 :=
  C2_precondition_failures_are_400.1 baseDB aliceU none (by decide) (by decide)

/-- `logout_user` returns success on every input: no code path raises. -/
theorem logout_user_ok (db : DB) (token : String) (user : User) :
    (logout_user db token user).result = .ok () := by
  unfold logout_user
  cases h : findSession db token <;> simp [h]

/-- After `logout_user`, every stored session bearing the token has
`is_valid = false`. -/
theorem logout_user_invalidates (db : DB) (token : String) (user : User) :
    ∀ s ∈ (finalState db (logout_user db token user)).sessions,
      s.session_token = token → s.is_valid = false := by
  intro s hs htok
  cases h : findSession db token with
  | none =>
    have hfs : (finalState db (logout_user db token user)).sessions
        = db.sessions := by
      unfold logout_user
      rw [h]
      rfl
    rw [hfs] at hs
    exact absurd ((List.find?_eq_none.mp h) s hs) (by simp [htok])
  | some s0 =>
    have hfs : (finalState db (logout_user db token user)).sessions
        = db.sessions.map (fun s =>
            if s.session_token == token then { s with is_valid := false }
            else s) := by
      unfold logout_user
      rw [h]
      rfl
    rw [hfs] at hs
    rcases List.mem_map.mp hs with ⟨a, _, ha⟩
    by_cases hcase : a.session_token = token
    · rw [if_pos (by simp [hcase])] at ha
      rw [← ha]
    · rw [if_neg (by simp [hcase])] at ha
      exact absurd (ha ▸ htok) hcase

/-- C7: session invalidation is idempotent and total — for every token,
`logout_user` never fails (even for an unknown or already-invalid token),
after the call any stored session with that token has `is_valid = false`,
and invalidating a second time also succeeds and preserves that
postcondition. -/
theorem C7_logout_idempotent (db : DB) (token : String) (user user2 : User) :
    (logout_user db token user).result = .ok ()
      ∧ (∀ s ∈ (finalState db (logout_user db token user)).sessions,
          s.session_token = token → s.is_valid = false)
      ∧ (logout_user (finalState db (logout_user db token user)) token
          user2).result = .ok ()
      ∧ (∀ s ∈ (finalState (finalState db (logout_user db token user))
            (logout_user (finalState db (logout_user db token user)) token
              user2)).sessions,
          s.session_token = token → s.is_valid = false) :=
  ⟨logout_user_ok db token user,
   logout_user_invalidates db token user,
   logout_user_ok _ token user2,
   logout_user_invalidates _ token user2⟩

/-- C7 witness: logging the live token out twice on the concrete store
succeeds both times and leaves the session invalid. -/
theorem C7_logout_idempotent_witness :
    (logout_user baseDB "tok1" aliceU).result = .ok ()
      ∧ (∀ s ∈ (finalState baseDB (logout_user baseDB "tok1" aliceU)).sessions,
          s.session_token = "tok1" → s.is_valid = false)
      ∧ (logout_user (finalState baseDB (logout_user baseDB "tok1" aliceU))
          "tok1" aliceU).result = .ok ()
      ∧ (∀ s ∈ (finalState (finalState baseDB (logout_user baseDB "tok1" aliceU))
            (logout_user (finalState baseDB (logout_user baseDB "tok1" aliceU))
              "tok1" aliceU)).sessions,
          s.session_token = "tok1" → s.is_valid = false) :=
  C7_logout_idempotent baseDB "tok1" aliceU aliceU

/-- C3 counterexample: on the concrete store, after soft-deleting
`report1` its history rows still exist in the history table, yet the
history query (`get_report_history`) for that report does not return them —
it fails with 404, because it resolves the report through the same
deleted-excluding id lookup. -/
theorem C3_history_query_counterexample :
    historyOf (finalState baseDB (soft_delete_report baseDB report1 carolU 7))
        10 = [hist1]
      ∧ get_report_history
          (finalState baseDB (soft_delete_report baseDB report1 carolU 7))
          10 carolU
        = .error ⟨404, "Report not found"⟩ := by
  constructor
  · decide
  · decide

/-- C3 amended: after `soft_delete` is applied to a report, any subsequent
lookup of the report by id fails (`get_report_by_id` returns none, which
the routes surface as `NotFound`), and the report's `ReportStatusHistory`
rows remain stored untouched in the history table; however the history
endpoint itself also fails with 404 for the soft-deleted report, since it
resolves the report through the same id lookup first. -/
theorem C3_soft_delete_visibility (db : DB) (report : CrimeReport)
    (actor viewer : User) (now : Int) (hnd : report.is_deleted = false) :
    get_report_by_id (finalState db (soft_delete_report db report actor now))
        report.id = none
      ∧ (finalState db (soft_delete_report db report actor now)).history
          = db.history
      ∧ get_report_history
          (finalState db (soft_delete_report db report actor now))
          report.id viewer
        = .error ⟨404, "Report not found"⟩ := by
  have hrep : (finalState db (soft_delete_report db report actor now)).reports
      = updateReportRow db.reports
          { report with is_deleted := true, deleted_at := some now } := by
    unfold soft_delete_report
    rw [if_neg (by simp [hnd])]
    rfl
  have hhist : (finalState db (soft_delete_report db report actor now)).history
      = db.history := by
    unfold soft_delete_report
    rw [if_neg (by simp [hnd])]
    rfl
  have hnone : get_report_by_id
      (finalState db (soft_delete_report db report actor now)) report.id
        = none := by
    unfold get_report_by_id
    rw [hrep]
    rw [List.find?_eq_none]
    intro x hx
    rcases List.mem_map.mp hx with ⟨a, _, ha⟩
    by_cases hid : a.id = report.id
    · rw [if_pos (by simp [hid])] at ha
      simp [← ha]
    · rw [if_neg (by simp [hid])] at ha
      simp [← ha, hid]
  refine ⟨hnone, hhist, ?_⟩
  unfold get_report_history
  rw [hnone]

/-- C3 witness: the amended statement at the concrete store. -/
theorem C3_soft_delete_visibility_witness :
    get_report_by_id
        (finalState baseDB (soft_delete_report baseDB report1 carolU 7)) 10
        = none
      ∧ (finalState baseDB
          (soft_delete_report baseDB report1 carolU 7)).history
          = baseDB.history
      ∧ get_report_history
          (finalState baseDB (soft_delete_report baseDB report1 carolU 7))
          10 carolU
        = .error ⟨404, "Report not found"⟩ :=
  C3_soft_delete_visibility baseDB report1 carolU carolU 7 (by decide)

/-- C6: approving a PENDING request marks it APPROVED with the resolver id
and resolution timestamp recorded, and promotes the requester to ADMIN, all
inside the first (single) business commit; rejecting records the resolver
and notes on the request and never touches the users table. -/
theorem C6_resolution_semantics :
    (∀ (db : DB) (request_id : Nat) (approver : User)
        (notes : Option String) (now : Int) (rq : AdminRequest) (u : User),
      findRequest db request_id = some rq →
      rq.status = AdminRequestStatus.PENDING →
      findUser db rq.user_id = some u →
      ∃ d1 d2,
        (approve_admin_request db request_id approver notes now).commits
            = [d1, d2]
          ∧ findRequest d1 request_id = some
              { rq with status := .APPROVED,
                        approved_by := some approver.id,
                        admin_notes := notes, resolved_at := some now }
          ∧ (findUser d1 rq.user_id).map (fun x => x.role)
              = some UserRole.ADMIN
          ∧ d2.users = d1.users ∧ d2.admin_requests = d1.admin_requests)
    ∧ (∀ (db : DB) (request_id : Nat) (rejecter : User)
        (notes : Option String) (now : Int) (rq : AdminRequest),
      findRequest db request_id = some rq →
      rq.status = AdminRequestStatus.PENDING →
      ∃ d1 d2,
        (reject_admin_request db request_id rejecter notes now).commits
            = [d1, d2]
          ∧ findRequest d1 request_id = some
              { rq with status := .REJECTED,
                        approved_by := some rejecter.id,
                        admin_notes := notes, resolved_at := some now }
          ∧ d1.users = db.users ∧ d2.users = db.users) := by
  constructor
  · intro db request_id approver notes now rq u hrq hst hu
    have hrqid : rq.id = request_id := by
      have := List.find?_some hrq
      simpa using this
    have huid : u.id = rq.user_id := by
      have := List.find?_some hu
      simpa using this
    unfold approve_admin_request
    rw [hrq]
    simp only [hst, ne_eq, not_true_eq_false, if_false, hu,
      reduceCtorEq, ↓reduceIte]
    refine ⟨_, _, rfl, ?_, ?_, rfl, rfl⟩
    · show findRequest
        { db with
          admin_requests := updateRequestRow db.admin_requests _,
          users := updateUserRow db.users _ } request_id = _
      unfold findRequest updateRequestRow
      simp only [hrqid]
      apply find?_update_row (fun r => r.id) db.admin_requests request_id rq
      · exact hrq
      · rfl
    · show (findUser
        { db with
          admin_requests := updateRequestRow db.admin_requests _,
          users := updateUserRow db.users _ } rq.user_id).map _ = _
      unfold findUser updateUserRow
      simp only [huid]
      have hfind := find?_update_row (fun (r : User) => r.id) db.users rq.user_id u
        { id := rq.user_id, email := u.email, role := UserRole.ADMIN,
          is_active := u.is_active, is_locked := u.is_locked } hu (by rfl)
      rw [hfind]
      rfl
  · intro db request_id rejecter notes now rq hrq hst
    have hrqid : rq.id = request_id := by
      have := List.find?_some hrq
      simpa using this
    unfold reject_admin_request
    rw [hrq]
    simp only [hst, ne_eq, not_true_eq_false, if_false, reduceCtorEq,
      ↓reduceIte]
    refine ⟨_, _, rfl, ?_, rfl, rfl⟩
    show findRequest
      { db with admin_requests := updateRequestRow db.admin_requests _ }
        request_id = _
    unfold findRequest updateRequestRow
    simp only [hrqid]
    apply find?_update_row (fun r => r.id) db.admin_requests request_id rq
    · exact hrq
    · rfl

/-- C6 witness: approving `aliceU`'s pending request on the concrete store
promotes her to ADMIN inside the business commit. -/
theorem C6_resolution_semantics_witness :
    ∃ d1 d2,
      (approve_admin_request baseDB 20 superAdminU none 9).commits = [d1, d2]
        ∧ findRequest d1 20 = some
            { pendReq with status := .APPROVED, approved_by := some 1,
                           admin_notes := none, resolved_at := some 9 }
        ∧ (findUser d1 pendReq.user_id).map (fun x => x.role)
            = some UserRole.ADMIN
        ∧ d2.users = d1.users ∧ d2.admin_requests = d1.admin_requests :=
  C6_resolution_semantics.1 baseDB 20 superAdminU none 9 pendReq aliceU
    (by decide) (by decide) (by decide)

/-- A well-formed bearer header splits into a scheme recognised as
`bearer` (case-insensitively) and the token. -/
theorem bearerToken_some (a t : String) (h : bearerToken a = some t) :
    ∃ scheme, pySplit a = [scheme, t] ∧ strToLower scheme = "bearer" := by
  unfold bearerToken at h
  rcases hp : pySplit a with _ | ⟨scheme, _ | ⟨tok, _ | ⟨x, tail⟩⟩⟩
  · rw [hp] at h
    simp at h
  · rw [hp] at h
    simp at h
  · rw [hp] at h
    by_cases hlow : strToLower scheme = "bearer"
    · simp only [hlow, if_true] at h
      exact ⟨scheme, by rw [Option.some_inj.mp h], hlow⟩
    · simp [hlow] at h
  · rw [hp] at h
    simp at h

/-- C9: session expiry is rejected only when strictly past — a session
whose `expires_at` equals the current instant still resolves successfully,
because `get_current_user` rejects only `expires_at < now`. -/
theorem C9_boundary_expiry_resolves (db : DB) (a t : String) (s : Session)
    (u : User) (now : Int) (hb : bearerToken a = some t)
    (hs : findSession db t = some s) (hv : s.is_valid = true)
    (he : s.expires_at = now) (hu : findUser db s.user_id = some u)
    (ha : u.is_active = true) (hl : u.is_locked = false) :
    get_current_user db (some a) now = .ok u := by
  rcases bearerToken_some a t hb with ⟨scheme, hp, hlow⟩
  simp [get_current_user, hp, hlow, hs, hv, he, hu, ha, hl,
    lt_self_iff_false]

/-- C9 witness: the concrete session expiring exactly at instant 100 still
resolves at instant 100. -/
theorem C9_boundary_expiry_resolves_witness :
    get_current_user baseDB (some "Bearer tok1") 100 = .ok aliceU :=
  C9_boundary_expiry_resolves baseDB "Bearer tok1" "tok1" sess1 aliceU 100
    (by decide) (by decide) (by decide) (by decide) (by decide) (by decide)
    (by decide)

/-- C10: a valid, unexpired session whose user row is missing fails with
`Unauthenticated` (HTTP 401, same class as an invalid token), not with
`Forbidden` or an unhandled error. -/
theorem C10_missing_user_unauthenticated (db : DB) (a t : String)
    (s : Session) (now : Int) (hb : bearerToken a = some t)
    (hs : findSession db t = some s) (hv : s.is_valid = true)
    (he : ¬s.expires_at < now) (hu : findUser db s.user_id = none) :
    get_current_user db (some a) now = .error ⟨401, "User not found"⟩ := by
  rcases bearerToken_some a t hb with ⟨scheme, hp, hlow⟩
  simp [get_current_user, hp, hlow, hs, hv, he, hu]

/-- C10 witness: the dangling session of the concrete store resolves to a
401, not a 403. -/
theorem C10_missing_user_unauthenticated_witness :
    get_current_user danglingDB (some "Bearer tok9") 50
      = .error ⟨401, "User not found"⟩ :=
  C10_missing_user_unauthenticated danglingDB "Bearer tok9" "tok9"
    danglingSess 50 (by decide) (by decide) (by decide) (by decide)
    (by decide)

/-- A malformed bearer header short-circuits resolution with 401. -/
theorem get_current_user_malformed (db : DB) (a : String) (now : Int)
    (h : bearerToken a = none) :
    get_current_user db (some a) now
      = .error ⟨401, "Invalid authentication credentials"⟩ := by
  unfold bearerToken at h
  rcases hp : pySplit a with _ | ⟨scheme, _ | ⟨tok, _ | ⟨x, tail⟩⟩⟩
  · simp [get_current_user, hp]
  · simp [get_current_user, hp]
  · rw [hp] at h
    by_cases hlow : strToLower scheme = "bearer"
    · simp [hlow] at h
    · simp [get_current_user, hp, hlow]
  · simp [get_current_user, hp]

/-- Every `Unauthenticated` condition of the spec produces a 401. -/
theorem resolve_unauthenticated (db : DB) (authorization : Option String)
    (now : Int) (h : UnauthenticatedCond db authorization now) :
    errorStatus (get_current_user db authorization now) = some 401 := by
  rcases h with rfl | ⟨a, rfl, h⟩
  · simp [get_current_user, errorStatus]
  · rcases h with h | ⟨t, hbt, h⟩
    · rw [get_current_user_malformed db a now h]
      rfl
    · rcases bearerToken_some a t hbt with ⟨scheme, hp, hlow⟩
      rcases h with h | ⟨s, hs, h⟩
      · simp [get_current_user, hp, hlow, h, errorStatus]
      · rcases h with h | h
        · simp [get_current_user, hp, hlow, hs, h, errorStatus]
        · cases hv : s.is_valid
          · simp [get_current_user, hp, hlow, hs, hv, errorStatus]
          · simp [get_current_user, hp, hlow, hs, hv, h, errorStatus]

/-- Every `Forbidden` condition of the spec produces a 403. -/
theorem resolve_forbidden (db : DB) (authorization : Option String)
    (now : Int) (h : ForbiddenCond db authorization now) :
    errorStatus (get_current_user db authorization now) = some 403 := by
  rcases h with ⟨a, t, s, u, rfl, hbt, hs, hv, he, hu, hblock⟩
  rcases bearerToken_some a t hbt with ⟨scheme, hp, hlow⟩
  rcases hblock with hact | hlock
  · simp [get_current_user, hp, hlow, hs, hv, he, hu, hact, errorStatus]
  · cases hact : u.is_active
    · simp [get_current_user, hp, hlow, hs, hv, he, hu, hact, errorStatus]
    · simp [get_current_user, hp, hlow, hs, hv, he, hu, hact, hlock,
        errorStatus]

/-- The success condition of the spec resolves to the owning user. -/
theorem resolve_ok (db : DB) (authorization : Option String) (now : Int)
    (u : User) (h : ResolvesCond db authorization now u) :
    get_current_user db authorization now = .ok u := by
  rcases h with ⟨a, t, s, rfl, hbt, hs, hv, he, hu, hact, hlock⟩
  rcases bearerToken_some a t hbt with ⟨scheme, hp, hlow⟩
  simp [get_current_user, hp, hlow, hs, hv, he, hu, hact, hlock]

/-- Totality: under the session foreign-key constraint, every resolution
falls under exactly one of the three spec conditions. -/
theorem resolve_total (db : DB) (authorization : Option String) (now : Int)
    (hfk : ∀ s ∈ db.sessions, (findUser db s.user_id).isSome) :
    UnauthenticatedCond db authorization now
      ∨ ForbiddenCond db authorization now
      ∨ ∃ u, ResolvesCond db authorization now u := by
  rcases authorization with _ | a
  · exact Or.inl (Or.inl rfl)
  · cases hbt : bearerToken a with
    | none => exact Or.inl (Or.inr ⟨a, rfl, Or.inl hbt⟩)
    | some t =>
      cases hs : findSession db t with
      | none => exact Or.inl (Or.inr ⟨a, rfl, Or.inr ⟨t, hbt, Or.inl hs⟩⟩)
      | some s =>
        cases hv : s.is_valid with
        | false =>
          exact Or.inl (Or.inr ⟨a, rfl, Or.inr ⟨t, hbt,
            Or.inr ⟨s, hs, Or.inl hv⟩⟩⟩)
        | true =>
          by_cases he : s.expires_at < now
          · exact Or.inl (Or.inr ⟨a, rfl, Or.inr ⟨t, hbt,
              Or.inr ⟨s, hs, Or.inr he⟩⟩⟩)
          · have hu : (findUser db s.user_id).isSome :=
              hfk s (List.mem_of_find?_eq_some hs)
            rcases Option.isSome_iff_exists.mp hu with ⟨u, hu⟩
            cases hact : u.is_active with
            | false =>
              exact Or.inr (Or.inl ⟨a, t, s, u, rfl, hbt, hs, hv, he, hu,
                Or.inl hact⟩)
            | true =>
              cases hlock : u.is_locked with
              | true =>
                exact Or.inr (Or.inl ⟨a, t, s, u, rfl, hbt, hs, hv, he, hu,
                  Or.inr hlock⟩)
              | false =>
                exact Or.inr (Or.inr ⟨u, a, t, s, rfl, hbt, hs, hv, he, hu,
                  hact, hlock⟩)

/-- C5: under the sessions→users foreign-key constraint, resolving a
bearer token fails with `Unauthenticated` (401) exactly when the header is
missing, malformed, the token unknown, the session invalidated, or expiry
strictly past; otherwise it fails with `Forbidden` (403) exactly when the
owning user is inactive or locked; otherwise it returns the owning user.
The resolver is a pure function of the store (it is read-only by
construction), so no state is mutated in any case. -/
theorem C5_resolve_classification (db : DB) (authorization : Option String)
    (now : Int)
    (hfk : ∀ s ∈ db.sessions, (findUser db s.user_id).isSome) :
    (errorStatus (get_current_user db authorization now) = some 401
        ↔ UnauthenticatedCond db authorization now)
      ∧ (errorStatus (get_current_user db authorization now) = some 403
        ↔ ForbiddenCond db authorization now)
      ∧ (∀ u, get_current_user db authorization now = .ok u
        ↔ ResolvesCond db authorization now u) := by
  have htot := resolve_total db authorization now hfk
  refine ⟨⟨?_, resolve_unauthenticated db authorization now⟩,
          ⟨?_, resolve_forbidden db authorization now⟩, ?_⟩
  · intro h
    rcases htot with hU | hF | ⟨u, hR⟩
    · exact hU
    · rw [resolve_forbidden db authorization now hF] at h
      simp at h
    · rw [resolve_ok db authorization now u hR] at h
      simp [errorStatus] at h
  · intro h
    rcases htot with hU | hF | ⟨u, hR⟩
    · rw [resolve_unauthenticated db authorization now hU] at h
      simp at h
    · exact hF
    · rw [resolve_ok db authorization now u hR] at h
      simp [errorStatus] at h
  · intro u
    constructor
    · intro h
      rcases htot with hU | hF | ⟨u', hR⟩
      · have hx := resolve_unauthenticated db authorization now hU
        rw [h] at hx
        simp [errorStatus] at hx
      · have hx := resolve_forbidden db authorization now hF
        rw [h] at hx
        simp [errorStatus] at hx
      · have hx := resolve_ok db authorization now u' hR
        rw [h] at hx
        injection hx with h2
        rw [h2]
        exact hR
    · exact resolve_ok db authorization now u

/-- C5 witness: the classification at the concrete store — the live
bearer token resolves to its owning user, and an unknown token is a
401. -/
theorem C5_resolve_classification_witness :
    get_current_user baseDB (some "Bearer tok1") 50 = .ok aliceU
      ∧ errorStatus (get_current_user baseDB (some "Bearer nope") 50)
          = some 401 :=
  ⟨((C5_resolve_classification baseDB (some "Bearer tok1") 50
      (by decide)).2.2 aliceU).mpr
      ⟨"Bearer tok1", "tok1", sess1, rfl, by decide, by decide, by decide,
       by decide, by decide, by decide, by decide⟩,
   (C5_resolve_classification baseDB (some "Bearer nope") 50
      (by decide)).1.mpr
      (Or.inr ⟨"Bearer nope", rfl, Or.inr ⟨"nope", by decide,
        Or.inl (by decide)⟩⟩)⟩

/-- C1 counterexample: at a concrete input, `update_report_status` produces
two durable transactions, and the first — which already contains the status
mutation and the appended history row — contains no audit row.  The audit
row is therefore not committed in the same transaction as the business
mutation: were the audit write to fail, the mutation would stay committed
instead of rolling back. -/
theorem C1_audit_atomicity_counterexample :
    (update_report_status baseDB report1 .ASSIGNED carolU none 5).commits.length
        = 2
      ∧ ((update_report_status baseDB report1 .ASSIGNED carolU none
            5).commits.head?.map
          (fun d => ((findReportAny d 10).map (fun r => r.status),
                     d.history.length, d.audit_logs.length)))
        = some (some .ASSIGNED, 2, 0) := by
  constructor
  · decide
  · decide

/-- C1 amended: for every state-changing business operation, the business
mutation together with any derived history row is committed in a first
transaction that contains no audit row, and the audit row is committed in a
second, separate transaction that changes nothing else.  Consequently a
failure of the audit write leaves the business mutation durably committed —
the mutation is not rolled back (the spec's same-transaction atomicity does
not hold). -/
theorem C1_audit_commits_separately :
    (∀ (db : DB) (user : User) (title description : String)
        (priority : ReportPriority) (now : Int),
      ∃ d1 d2, (create_report db user title description priority now).commits
          = [d1, d2]
        ∧ d1.audit_logs = db.audit_logs
        ∧ d1.reports = db.reports ++
            [{ id := db.next_id, title := title, description := description,
               user_id := user.id, status := .NEW, priority := priority,
               admin_notes := none, is_deleted := false, deleted_at := none,
               updated_at := now }]
        ∧ d1.history = db.history ++
            [{ report_id := db.next_id, old_status := none,
               new_status := .NEW, changed_by := user.id, notes := none }]
        ∧ d2 = { d1 with audit_logs := d1.audit_logs ++
            [{ actor_id := some user.id, action := "REPORT_CREATED",
               resource_type := some "CRIME_REPORT",
               resource_id := some db.next_id }] })
    ∧ (∀ (db : DB) (report : CrimeReport) (new_status : ReportStatus)
        (changed_by : User) (notes : Option String) (now : Int),
      ∃ d1 d2, (update_report_status db report new_status changed_by notes
            now).commits = [d1, d2]
        ∧ d1.audit_logs = db.audit_logs
        ∧ d1.reports = updateReportRow db.reports
            { report with status := new_status, updated_at := now }
        ∧ d1.history = db.history ++
            [{ report_id := report.id, old_status := some report.status,
               new_status := new_status, changed_by := changed_by.id,
               notes := notes }]
        ∧ d2 = { d1 with audit_logs := d1.audit_logs ++
            [{ actor_id := some changed_by.id,
               action := "REPORT_STATUS_CHANGED",
               resource_type := some "CRIME_REPORT",
               resource_id := some report.id }] })
    ∧ (∀ (db : DB) (report : CrimeReport) (new_priority : ReportPriority)
        (changed_by : User) (now : Int),
      ∃ d1 d2, (update_report_priority db report new_priority changed_by
            now).commits = [d1, d2]
        ∧ d1.audit_logs = db.audit_logs
        ∧ d1.reports = updateReportRow db.reports
            { report with priority := new_priority, updated_at := now }
        ∧ d1.history = db.history
        ∧ d2 = { d1 with audit_logs := d1.audit_logs ++
            [{ actor_id := some changed_by.id,
               action := "REPORT_PRIORITY_CHANGED",
               resource_type := some "CRIME_REPORT",
               resource_id := some report.id }] })
    ∧ (∀ (db : DB) (report : CrimeReport) (admin_notes : String)
        (changed_by : User) (now : Int),
      ∃ d1 d2, (update_report_notes db report admin_notes changed_by
            now).commits = [d1, d2]
        ∧ d1.audit_logs = db.audit_logs
        ∧ d1.reports = updateReportRow db.reports
            { report with admin_notes := some admin_notes,
                          updated_at := now }
        ∧ d2 = { d1 with audit_logs := d1.audit_logs ++
            [{ actor_id := some changed_by.id,
               action := "REPORT_NOTES_UPDATED",
               resource_type := some "CRIME_REPORT",
               resource_id := some report.id }] })
    ∧ (∀ (db : DB) (report : CrimeReport) (deleted_by : User) (now : Int),
      report.is_deleted = false →
      ∃ d1 d2, (soft_delete_report db report deleted_by now).commits
          = [d1, d2]
        ∧ d1.audit_logs = db.audit_logs
        ∧ d1.reports = updateReportRow db.reports
            { report with is_deleted := true, deleted_at := some now }
        ∧ d2 = { d1 with audit_logs := d1.audit_logs ++
            [{ actor_id := some deleted_by.id, action := "REPORT_DELETED",
               resource_type := some "CRIME_REPORT",
               resource_id := some report.id }] })
    ∧ (∀ (db : DB) (user : User) (reason : Option String),
      user.role = UserRole.USER →
      db.admin_requests.find? (fun r =>
          r.user_id == user.id && r.status == AdminRequestStatus.PENDING)
        = none →
      ∃ d1 d2, (create_admin_request db user reason).commits = [d1, d2]
        ∧ d1.audit_logs = db.audit_logs
        ∧ d1.admin_requests = db.admin_requests ++
            [{ id := db.next_id, user_id := user.id, status := .PENDING,
               request_reason := reason, approved_by := none,
               admin_notes := none, resolved_at := none }]
        ∧ d2 = { d1 with audit_logs := d1.audit_logs ++
            [{ actor_id := some user.id, action := "ADMIN_REQUESTED",
               resource_type := some "ADMIN_REQUEST",
               resource_id := some db.next_id }] })
    ∧ (∀ (db : DB) (request_id : Nat) (approver : User)
        (notes : Option String) (now : Int) (rq : AdminRequest) (u : User),
      findRequest db request_id = some rq →
      rq.status = AdminRequestStatus.PENDING →
      findUser db rq.user_id = some u →
      ∃ d1 d2, (approve_admin_request db request_id approver notes
            now).commits = [d1, d2]
        ∧ d1.audit_logs = db.audit_logs
        ∧ d1.admin_requests = updateRequestRow db.admin_requests
            { rq with status := .APPROVED,
                      approved_by := some approver.id,
                      admin_notes := notes, resolved_at := some now }
        ∧ d1.users = updateUserRow db.users { u with role := .ADMIN }
        ∧ d2 = { d1 with audit_logs := d1.audit_logs ++
            [{ actor_id := some approver.id, action := "ADMIN_APPROVED",
               resource_type := some "ADMIN_REQUEST",
               resource_id := some rq.id }] })
    ∧ (∀ (db : DB) (request_id : Nat) (rejecter : User)
        (notes : Option String) (now : Int) (rq : AdminRequest),
      findRequest db request_id = some rq →
      rq.status = AdminRequestStatus.PENDING →
      ∃ d1 d2, (reject_admin_request db request_id rejecter notes
            now).commits = [d1, d2]
        ∧ d1.audit_logs = db.audit_logs
        ∧ d1.admin_requests = updateRequestRow db.admin_requests
            { rq with status := .REJECTED,
                      approved_by := some rejecter.id,
                      admin_notes := notes, resolved_at := some now }
        ∧ d2 = { d1 with audit_logs := d1.audit_logs ++
            [{ actor_id := some rejecter.id, action := "ADMIN_REJECTED",
               resource_type := some "ADMIN_REQUEST",
               resource_id := some rq.id }] })
    ∧ (∀ (db : DB) (user_id : Nat) (revoked_by u : User),
      findUser db user_id = some u → u.role = UserRole.ADMIN →
      ∃ d1 d2, (revoke_admin_role db user_id revoked_by).commits = [d1, d2]
        ∧ d1.audit_logs = db.audit_logs
        ∧ d1.users = updateUserRow db.users { u with role := .USER }
        ∧ d2 = { d1 with audit_logs := d1.audit_logs ++
            [{ actor_id := some revoked_by.id, action := "ADMIN_REVOKED",
               resource_type := some "USER", resource_id := some u.id }] })
    ∧ (∀ (db : DB) (user_id : Nat) (locked_by u : User),
      findUser db user_id = some u → u.role ≠ UserRole.SUPER_ADMIN →
      u.is_locked = false →
      ∃ d1 d2, (lock_user db user_id locked_by).commits = [d1, d2]
        ∧ d1.audit_logs = db.audit_logs
        ∧ d1.users = updateUserRow db.users { u with is_locked := true }
        ∧ d2 = { d1 with audit_logs := d1.audit_logs ++
            [{ actor_id := some locked_by.id, action := "USER_LOCKED",
               resource_type := some "USER", resource_id := some u.id }] })
    ∧ (∀ (db : DB) (user_id : Nat) (unlocked_by u : User),
      findUser db user_id = some u → u.is_locked = true →
      ∃ d1 d2, (unlock_user db user_id unlocked_by).commits = [d1, d2]
        ∧ d1.audit_logs = db.audit_logs
        ∧ d1.users = updateUserRow db.users { u with is_locked := false }
        ∧ d2 = { d1 with audit_logs := d1.audit_logs ++
            [{ actor_id := some unlocked_by.id, action := "USER_UNLOCKED",
               resource_type := some "USER",
               resource_id := some u.id }] }) := by
  refine ⟨?_, ?_, ?_, ?_, ?_, ?_, ?_, ?_, ?_, ?_, ?_⟩
  · intro db user title description priority now
    exact ⟨_, _, rfl, rfl, rfl, rfl, rfl⟩
  · intro db report new_status changed_by notes now
    exact ⟨_, _, rfl, rfl, rfl, rfl, rfl⟩
  · intro db report new_priority changed_by now
    exact ⟨_, _, rfl, rfl, rfl, rfl, rfl⟩
  · intro db report admin_notes changed_by now
    exact ⟨_, _, rfl, rfl, rfl, rfl⟩
  · intro db report deleted_by now hnd
    unfold soft_delete_report
    rw [if_neg (by simp [hnd])]
    exact ⟨_, _, rfl, rfl, rfl, rfl⟩
  · intro db user reason hrole hpend
    unfold create_admin_request
    rw [if_neg (by simp [hrole]), hpend]
    exact ⟨_, _, rfl, rfl, rfl, rfl⟩
  · intro db request_id approver notes now rq u hrq hst hu
    unfold approve_admin_request
    rw [hrq]
    simp only [hst, ne_eq, not_true_eq_false, if_false, hu, reduceCtorEq,
      ↓reduceIte]
    exact ⟨_, _, rfl, rfl, rfl, rfl, rfl⟩
  · intro db request_id rejecter notes now rq hrq hst
    unfold reject_admin_request
    rw [hrq]
    simp only [hst, ne_eq, not_true_eq_false, if_false, reduceCtorEq,
      ↓reduceIte]
    exact ⟨_, _, rfl, rfl, rfl, rfl⟩
  · intro db user_id revoked_by u hu hrole
    unfold revoke_admin_role
    rw [hu]
    simp only [hrole, ne_eq, not_true_eq_false, if_false, reduceCtorEq,
      ↓reduceIte]
    exact ⟨_, _, rfl, rfl, rfl, rfl⟩
  · intro db user_id locked_by u hu hrole hlock
    unfold lock_user
    rw [hu]
    simp only [hrole, hlock, Bool.false_eq_true, if_false, reduceCtorEq,
      ↓reduceIte]
    exact ⟨_, _, rfl, rfl, rfl, rfl⟩
  · intro db user_id unlocked_by u hu hlock
    unfold unlock_user
    rw [hu]
    simp only [hlock, Bool.true_eq_false, if_false, reduceCtorEq,
      ↓reduceIte]
    exact ⟨_, _, rfl, rfl, rfl, rfl⟩

/-- C1 witness: the separate-audit-commit shape at a concrete soft
delete. -/
theorem C1_audit_commits_separately_witness :
    ∃ d1 d2, (soft_delete_report baseDB report1 carolU 7).commits = [d1, d2]
      ∧ d1.audit_logs = baseDB.audit_logs
      ∧ d1.reports = updateReportRow baseDB.reports
          { report1 with is_deleted := true, deleted_at := some 7 }
      ∧ d2 = { d1 with audit_logs := d1.audit_logs ++
          [{ actor_id := some carolU.id, action := "REPORT_DELETED",
             resource_type := some "CRIME_REPORT",
             resource_id := some report1.id }] } :=
  C1_audit_commits_separately.2.2.2.2.1 baseDB report1 carolU 7 (by decide)

/-- One request changes the length of a report's history ledger by one
exactly when it is a successful `set_status` on that report or a creation
allocated that id. -/
theorem histLen_step (db : DB) (op : ReportOp) (rid : Nat) :
    (historyOf (step db op) rid).length
      = (historyOf db rid).length
        + (if isSuccSetStatus db op rid then 1 else 0)
        + (if isCreateAt db op rid then 1 else 0) := by
  cases op with
  | createOp user title description priority now =>
    have h : (step db (.createOp user title description priority now)).history
        = db.history ++ [{ report_id := db.next_id, old_status := none,
                           new_status := .NEW, changed_by := user.id,
                           notes := none }] := rfl
    by_cases hc : db.next_id = rid
    · simp [historyOf, h, List.filter_append, isSuccSetStatus, isCreateAt,
        hc]
    · simp [historyOf, h, List.filter_append, isSuccSetStatus, isCreateAt,
        hc]
  | setStatusOp rid' new_status actor notes now =>
    cases hrep : get_report_by_id db rid' with
    | none => simp [step, hrep, isSuccSetStatus, isCreateAt]
    | some report =>
      have hid : report.id = rid' := by
        have := List.find?_some hrep
        simp at this
        exact this.1
      have h : (step db (.setStatusOp rid' new_status actor notes
            now)).history
          = db.history ++ [{ report_id := report.id,
                             old_status := some report.status,
                             new_status := new_status,
                             changed_by := actor.id, notes := notes }] := by
        simp only [step, hrep]
        rfl
      by_cases hc : rid' = rid
      · subst hc
        simp [historyOf, h, List.filter_append, isSuccSetStatus, isCreateAt,
          hrep, hid]
      · simp [historyOf, h, List.filter_append, isSuccSetStatus, isCreateAt,
          hrep, hid, hc]
  | setPriorityOp rid' new_priority actor now =>
    have h : (step db (.setPriorityOp rid' new_priority actor now)).history
        = db.history := by
      cases hrep : get_report_by_id db rid' with
      | none => simp [step, hrep]
      | some report =>
        simp only [step, hrep]
        rfl
    simp [historyOf, h, isSuccSetStatus, isCreateAt]
  | setNotesOp rid' admin_notes actor now =>
    have h : (step db (.setNotesOp rid' admin_notes actor now)).history
        = db.history := by
      cases hrep : get_report_by_id db rid' with
      | none => simp [step, hrep]
      | some report =>
        simp only [step, hrep]
        rfl
    simp [historyOf, h, isSuccSetStatus, isCreateAt]
  | softDeleteOp rid' actor now =>
    have h : (step db (.softDeleteOp rid' actor now)).history
        = db.history := by
      cases hrep : get_report_by_id db rid' with
      | none => simp [step, hrep]
      | some report =>
        have hdel : report.is_deleted = false := by
          have := List.find?_some hrep
          simp at this
          exact this.2
        simp only [step, hrep]
        unfold soft_delete_report
        rw [if_neg (by simp [hdel])]
        rfl
    simp [historyOf, h, isSuccSetStatus, isCreateAt]

/-- Length of a report's ledger after a request sequence: the initial
length plus one per successful `set_status` plus one per creation allocated
that id. -/
theorem histLen_run (tr : List ReportOp) (db : DB) (rid : Nat) :
    (historyOf (run db tr) rid).length
      = (historyOf db rid).length + succSetStatusCount db tr rid
        + createdCount db tr rid := by
  induction tr generalizing db with
  | nil => simp [run, succSetStatusCount, createdCount]
  | cons op rest ih =>
    show (historyOf (run (step db op) rest) rid).length = _
    rw [ih (step db op)]
    rw [histLen_step db op rid]
    simp only [succSetStatusCount, createdCount]
    omega

/-- Requests never decrease the id allocator. -/
theorem next_id_step_le (db : DB) (op : ReportOp) :
    db.next_id ≤ (step db op).next_id := by
  cases op with
  | createOp user title description priority now =>
    show db.next_id ≤ db.next_id + 1
    omega
  | setStatusOp rid' new_status actor notes now =>
    cases hrep : get_report_by_id db rid' with
    | none => simp [step, hrep]
    | some report =>
      simp only [step, hrep]
      exact Nat.le_refl _
  | setPriorityOp rid' new_priority actor now =>
    cases hrep : get_report_by_id db rid' with
    | none => simp [step, hrep]
    | some report =>
      simp only [step, hrep]
      exact Nat.le_refl _
  | setNotesOp rid' admin_notes actor now =>
    cases hrep : get_report_by_id db rid' with
    | none => simp [step, hrep]
    | some report =>
      simp only [step, hrep]
      exact Nat.le_refl _
  | softDeleteOp rid' actor now =>
    cases hrep : get_report_by_id db rid' with
    | none => simp [step, hrep]
    | some report =>
      simp only [step, hrep]
      unfold soft_delete_report
      by_cases hdel : report.is_deleted
      · rw [if_pos hdel]
        exact Nat.le_refl _
      · rw [if_neg hdel]
        exact Nat.le_refl _

/-- An id strictly below the allocator is never allocated again. -/
theorem createdCount_eq_zero (tr : List ReportOp) (db : DB) (rid : Nat)
    (h : rid < db.next_id) : createdCount db tr rid = 0 := by
  induction tr generalizing db with
  | nil => rfl
  | cons op rest ih =>
    have h2 : rid < (step db op).next_id :=
      Nat.lt_of_lt_of_le h (next_id_step_le db op)
    have hC : isCreateAt db op rid = false := by
      cases op with
      | createOp u t d p n =>
        simp only [isCreateAt, beq_eq_false_iff_ne, ne_eq]
        omega
      | setStatusOp a b c d e => rfl
      | setPriorityOp a b c d => rfl
      | setNotesOp a b c d => rfl
      | softDeleteOp a b c => rfl
    simp [createdCount, hC, ih (step db op) h2]

/-- Each id is allocated by at most one creation along any sequence. -/
theorem createdCount_le_one (tr : List ReportOp) (db : DB) (rid : Nat) :
    createdCount db tr rid ≤ 1 := by
  induction tr generalizing db with
  | nil => simp [createdCount]
  | cons op rest ih =>
    by_cases hC : isCreateAt db op rid = true
    · have hnext : rid < (step db op).next_id := by
        cases op with
        | createOp u t d p n =>
          have : db.next_id = rid := by simpa [isCreateAt] using hC
          show rid < db.next_id + 1
          omega
        | setStatusOp a b c d e => simp [isCreateAt] at hC
        | setPriorityOp a b c d => simp [isCreateAt] at hC
        | setNotesOp a b c d => simp [isCreateAt] at hC
        | softDeleteOp a b c => simp [isCreateAt] at hC
      simp [createdCount, hC, createdCount_eq_zero rest (step db op) rid
        hnext]
    · have hC2 : isCreateAt db op rid = false := by
        simpa using hC
      simp [createdCount, hC2]
      exact ih (step db op)

/-- Appending a row whose `old_status` links to the ledger's last entry
preserves the chain property. -/
theorem chainOk_concat (h : List ReportStatusHistory)
    (row : ReportStatusHistory) (hc : chainOk h = true)
    (hlink : ∀ last, h.getLast? = some last →
      row.old_status = some last.new_status) :
    chainOk (h ++ [row]) = true := by
  induction h with
  | nil => simp [chainOk]
  | cons a t ih =>
    cases t with
    | nil =>
      have hl := hlink a rfl
      simp [chainOk, hl]
    | cons b t2 =>
      simp only [List.cons_append, chainOk, Bool.and_eq_true] at hc ⊢
      refine ⟨hc.1, ?_⟩
      have ih2 := ih hc.2 (fun last hl =>
        hlink last (by rw [List.getLast?_cons_cons]; exact hl))
      simpa [List.cons_append] using ih2

/-- Appending a correctly linked row to a well-shaped ledger keeps it
well-shaped, ending at the new row's status. -/
theorem chainFacts_append (h : List ReportStatusHistory)
    (st : ReportStatus) (row : ReportStatusHistory) (hc : ChainFacts h st)
    (hold : row.old_status = some st) :
    ChainFacts (h ++ [row]) row.new_status := by
  obtain ⟨hne, hho, hhn, hok, hlast⟩ := hc
  rcases h with _ | ⟨a, t⟩
  · exact absurd rfl hne
  refine ⟨by simp, ?_, ?_, ?_, ?_⟩
  · simpa using hho
  · simpa using hhn
  · apply chainOk_concat _ _ hok
    intro last hl
    rw [hl] at hlast
    simp at hlast
    rw [hold, hlast]
  · rw [List.getLast?_concat]
    rfl

/-- Row replacement keyed on the id never introduces a new id. -/
theorem mem_updateReportRow_id (l : List CrimeReport) (y r : CrimeReport)
    (h : r ∈ updateReportRow l y) : ∃ x ∈ l, x.id = r.id := by
  rcases List.mem_map.mp h with ⟨x, hx, hxy⟩
  by_cases hid : (x.id == y.id) = true
  · rw [if_pos hid] at hxy
    refine ⟨x, hx, ?_⟩
    rw [← hxy]
    simpa using hid
  · rw [if_neg hid] at hxy
    exact ⟨x, hx, by rw [hxy]⟩

/-- A report id present after one request was already present before it,
unless the request is a creation allocated exactly that id. -/
theorem step_mem_id (db : DB) (op : ReportOp) (rid : Nat)
    (h : ∃ r ∈ (step db op).reports, r.id = rid) :
    (∃ r ∈ db.reports, r.id = rid) ∨ isCreateAt db op rid = true := by
  rcases h with ⟨r, hr, rfl⟩
  cases op with
  | createOp user title description priority now =>
    have hrep : (step db (.createOp user title description priority
        now)).reports
        = db.reports ++ [{ id := db.next_id, title := title,
                           description := description, user_id := user.id,
                           status := .NEW, priority := priority,
                           admin_notes := none, is_deleted := false,
                           deleted_at := none, updated_at := now }] := rfl
    rw [hrep] at hr
    rcases List.mem_append.mp hr with hl | hl
    · exact Or.inl ⟨r, hl, rfl⟩
    · right
      simp only [List.mem_singleton] at hl
      rw [hl]
      simp [isCreateAt]
  | setStatusOp rid' new_status actor notes now =>
    cases hrep : get_report_by_id db rid' with
    | none =>
      rw [show (step db (.setStatusOp rid' new_status actor notes
          now)).reports = db.reports by simp [step, hrep]] at hr
      exact Or.inl ⟨r, hr, rfl⟩
    | some report =>
      have hrow : (step db (.setStatusOp rid' new_status actor notes
          now)).reports = updateReportRow db.reports
            { report with status := new_status, updated_at := now } := by
        simp only [step, hrep]
        rfl
      rw [hrow] at hr
      rcases mem_updateReportRow_id _ _ _ hr with ⟨x, hx, hxid⟩
      exact Or.inl ⟨x, hx, hxid⟩
  | setPriorityOp rid' new_priority actor now =>
    cases hrep : get_report_by_id db rid' with
    | none =>
      rw [show (step db (.setPriorityOp rid' new_priority actor
          now)).reports = db.reports by simp [step, hrep]] at hr
      exact Or.inl ⟨r, hr, rfl⟩
    | some report =>
      have hrow : (step db (.setPriorityOp rid' new_priority actor
          now)).reports = updateReportRow db.reports
            { report with priority := new_priority, updated_at := now } := by
        simp only [step, hrep]
        rfl
      rw [hrow] at hr
      rcases mem_updateReportRow_id _ _ _ hr with ⟨x, hx, hxid⟩
      exact Or.inl ⟨x, hx, hxid⟩
  | setNotesOp rid' admin_notes actor now =>
    cases hrep : get_report_by_id db rid' with
    | none =>
      rw [show (step db (.setNotesOp rid' admin_notes actor now)).reports
          = db.reports by simp [step, hrep]] at hr
      exact Or.inl ⟨r, hr, rfl⟩
    | some report =>
      have hrow : (step db (.setNotesOp rid' admin_notes actor
          now)).reports = updateReportRow db.reports
            { report with admin_notes := some admin_notes,
                          updated_at := now } := by
        simp only [step, hrep]
        rfl
      rw [hrow] at hr
      rcases mem_updateReportRow_id _ _ _ hr with ⟨x, hx, hxid⟩
      exact Or.inl ⟨x, hx, hxid⟩
  | softDeleteOp rid' actor now =>
    cases hrep : get_report_by_id db rid' with
    | none =>
      rw [show (step db (.softDeleteOp rid' actor now)).reports
          = db.reports by simp [step, hrep]] at hr
      exact Or.inl ⟨r, hr, rfl⟩
    | some report =>
      have hdel : report.is_deleted = false := by
        have := List.find?_some hrep
        simp at this
        exact this.2
      have hrow : (step db (.softDeleteOp rid' actor now)).reports
          = updateReportRow db.reports
            { report with is_deleted := true, deleted_at := some now } := by
        simp only [step, hrep]
        unfold soft_delete_report
        rw [if_neg (by simp [hdel])]
        rfl
      rw [hrow] at hr
      rcases mem_updateReportRow_id _ _ _ hr with ⟨x, hx, hxid⟩
      exact Or.inl ⟨x, hx, hxid⟩

/-- A report id present after a request sequence was present initially, or
was allocated by some creation in the sequence. -/
theorem mem_run_created (tr : List ReportOp) (db : DB) (rid : Nat)
    (h : ∃ r ∈ (run db tr).reports, r.id = rid) :
    (∃ r ∈ db.reports, r.id = rid) ∨ 1 ≤ createdCount db tr rid := by
  induction tr generalizing db with
  | nil => exact Or.inl h
  | cons op rest ih =>
    rcases ih (step db op) h with h1 | h1
    · rcases step_mem_id db op rid h1 with h2 | h2
      · exact Or.inl h2
      · right
        simp [createdCount, h2]
    · right
      have : createdCount db (op :: rest) rid
          = (if isCreateAt db op rid then 1 else 0)
            + createdCount (step db op) rest rid := rfl
      omega

/-- Replacing one fetched report row by a row with the same id and status,
while leaving history and allocator untouched, preserves the store
invariant. -/
theorem storeInv_update_nonstatus (db db' : DB) (rep rep' : CrimeReport)
    (hmem : rep ∈ db.reports) (hid : rep'.id = rep.id)
    (hst : rep'.status = rep.status)
    (hrep : db'.reports = updateReportRow db.reports rep')
    (hhist : db'.history = db.history) (hnid : db'.next_id = db.next_id)
    (h : StoreInv db) : StoreInv db' := by
  obtain ⟨hrid, hhid, hchain⟩ := h
  have hho : ∀ z, historyOf db' z = historyOf db z := fun z => by
    simp [historyOf, hhist]
  refine ⟨?_, ?_, ?_⟩
  · intro r hr
    rw [hrep] at hr
    rw [hnid]
    rcases mem_updateReportRow_id _ _ _ hr with ⟨x, hx, hxid⟩
    rw [← hxid]
    exact hrid x hx
  · intro e he
    rw [hhist] at he
    rw [hnid]
    exact hhid e he
  · intro r hr
    rw [hrep] at hr
    rcases List.mem_map.mp hr with ⟨x, hx, hxy⟩
    by_cases hb : (x.id == rep'.id) = true
    · rw [if_pos hb] at hxy
      rw [← hxy, hho, hid, hst]
      exact hchain rep hmem
    · rw [if_neg hb] at hxy
      rw [← hxy, hho]
      exact hchain x hx

/-- Every report-lifecycle request preserves the store invariant. -/
theorem storeInv_step (db : DB) (op : ReportOp) (h : StoreInv db) :
    StoreInv (step db op) := by
  obtain ⟨hrid, hhid, hchain⟩ := h
  cases op with
  | createOp user title description priority now =>
    refine ⟨?_, ?_, ?_⟩
    · intro r hr
      rcases List.mem_append.mp hr with hl | hl
      · exact Nat.lt_succ_of_lt (hrid r hl)
      · simp only [List.mem_singleton] at hl
        rw [hl]
        exact Nat.lt_succ_self _
    · intro e he
      rcases List.mem_append.mp he with hl | hl
      · exact Nat.lt_succ_of_lt (hhid e hl)
      · simp only [List.mem_singleton] at hl
        rw [hl]
        exact Nat.lt_succ_self _
    · intro r hr
      rcases List.mem_append.mp hr with hl | hl
      · have hne : (db.next_id == r.id) = false := by
          have := hrid r hl
          simp only [beq_eq_false_iff_ne, ne_eq]
          omega
        have heq : historyOf (step db (.createOp user title description
            priority now)) r.id = historyOf db r.id := by
          show (db.history ++ _).filter _ = _
          rw [List.filter_append]
          simp [historyOf, hne]
        rw [heq]
        exact hchain r hl
      · simp only [List.mem_singleton] at hl
        have hempty : historyOf db db.next_id = [] := by
          apply List.filter_eq_nil_iff.mpr
          intro a ha
          have := hhid a ha
          simp only [beq_iff_eq]
          omega
        have heq : historyOf (step db (.createOp user title description
            priority now)) db.next_id
            = [{ report_id := db.next_id, old_status := none,
                 new_status := .NEW, changed_by := user.id,
                 notes := none }] := by
          show (db.history ++ _).filter _ = _
          rw [List.filter_append]
          have h1 : List.filter (fun e => e.report_id == db.next_id)
              db.history = [] := hempty
          rw [h1]
          simp
        rw [hl]
        show ChainFacts (historyOf _ db.next_id) ReportStatus.NEW
        rw [heq]
        exact ⟨by simp, rfl, rfl, rfl, rfl⟩
  | setStatusOp rid' new_status actor notes now =>
    cases hrep : get_report_by_id db rid' with
    | none =>
      rw [show step db (.setStatusOp rid' new_status actor notes now) = db
        by simp [step, hrep]]
      exact ⟨hrid, hhid, hchain⟩
    | some rep =>
      have hmem : rep ∈ db.reports := List.mem_of_find?_eq_some hrep
      have hidd : rep.id = rid' := by
        have := List.find?_some hrep
        simp at this
        exact this.1
      have hrow : (step db (.setStatusOp rid' new_status actor notes
          now)).reports = updateReportRow db.reports
            { rep with status := new_status, updated_at := now } := by
        simp only [step, hrep]
        rfl
      have hhist : (step db (.setStatusOp rid' new_status actor notes
          now)).history = db.history ++
            [{ report_id := rep.id, old_status := some rep.status,
               new_status := new_status, changed_by := actor.id,
               notes := notes }] := by
        simp only [step, hrep]
        rfl
      have hnid : (step db (.setStatusOp rid' new_status actor notes
          now)).next_id = db.next_id := by
        simp only [step, hrep]
        rfl
      refine ⟨?_, ?_, ?_⟩
      · intro r hr
        rw [hrow] at hr
        rw [hnid]
        rcases mem_updateReportRow_id _ _ _ hr with ⟨x, hx, hxid⟩
        rw [← hxid]
        exact hrid x hx
      · intro e he
        rw [hhist] at he
        rw [hnid]
        rcases List.mem_append.mp he with hl | hl
        · exact hhid e hl
        · simp only [List.mem_singleton] at hl
          rw [hl]
          exact hrid rep hmem
      · intro r hr
        rw [hrow] at hr
        rcases List.mem_map.mp hr with ⟨x, hx, hxy⟩
        have hfilt : ∀ z, historyOf (step db
            (.setStatusOp rid' new_status actor notes now)) z
            = historyOf db z ++ (if (rep.id == z) = true then
              [{ report_id := rep.id, old_status := some rep.status,
                 new_status := new_status, changed_by := actor.id,
                 notes := notes }] else []) := by
          intro z
          show (step db (.setStatusOp rid' new_status actor notes
            now)).history.filter _ = _
          rw [hhist, List.filter_append]
          by_cases hz : (rep.id == z) = true
          · simp [historyOf, hz]
          · simp only [Bool.not_eq_true] at hz
            simp [historyOf, hz]
        by_cases hb : (x.id == rep.id) = true
        · rw [if_pos hb] at hxy
          rw [← hxy]
          show ChainFacts (historyOf (step db (.setStatusOp rid' new_status
            actor notes now)) rep.id) new_status
          rw [hfilt rep.id]
          rw [if_pos (by simp)]
          exact chainFacts_append _ rep.status _ (hchain rep hmem) rfl
        · have hxne : x.id ≠ rep.id := by simpa using hb
          rw [if_neg hb] at hxy
          rw [← hxy]
          rw [hfilt x.id]
          rw [if_neg (by simp [Ne.symm hxne])]
          simp only [List.append_nil]
          exact hchain x hx
  | setPriorityOp rid' new_priority actor now =>
    cases hrep : get_report_by_id db rid' with
    | none =>
      rw [show step db (.setPriorityOp rid' new_priority actor now) = db
        by simp [step, hrep]]
      exact ⟨hrid, hhid, hchain⟩
    | some rep =>
      exact storeInv_update_nonstatus db _ rep
        { rep with priority := new_priority, updated_at := now }
        (List.mem_of_find?_eq_some hrep) rfl rfl
        (by simp only [step, hrep]; rfl) (by simp only [step, hrep]; rfl)
        (by simp only [step, hrep]; rfl) ⟨hrid, hhid, hchain⟩
  | setNotesOp rid' admin_notes actor now =>
    cases hrep : get_report_by_id db rid' with
    | none =>
      rw [show step db (.setNotesOp rid' admin_notes actor now) = db
        by simp [step, hrep]]
      exact ⟨hrid, hhid, hchain⟩
    | some rep =>
      exact storeInv_update_nonstatus db _ rep
        { rep with admin_notes := some admin_notes, updated_at := now }
        (List.mem_of_find?_eq_some hrep) rfl rfl
        (by simp only [step, hrep]; rfl) (by simp only [step, hrep]; rfl)
        (by simp only [step, hrep]; rfl) ⟨hrid, hhid, hchain⟩
  | softDeleteOp rid' actor now =>
    cases hrep : get_report_by_id db rid' with
    | none =>
      rw [show step db (.softDeleteOp rid' actor now) = db
        by simp [step, hrep]]
      exact ⟨hrid, hhid, hchain⟩
    | some rep =>
      have hdel : rep.is_deleted = false := by
        have := List.find?_some hrep
        simp at this
        exact this.2
      exact storeInv_update_nonstatus db _ rep
        { rep with is_deleted := true, deleted_at := some now }
        (List.mem_of_find?_eq_some hrep) rfl rfl
        (by simp only [step, hrep]
            unfold soft_delete_report
            rw [if_neg (by simp [hdel])]
            rfl)
        (by simp only [step, hrep]
            unfold soft_delete_report
            rw [if_neg (by simp [hdel])]
            rfl)
        (by simp only [step, hrep]
            unfold soft_delete_report
            rw [if_neg (by simp [hdel])]
            rfl) ⟨hrid, hhid, hchain⟩

/-- The store invariant holds after any request sequence from an invariant
store. -/
theorem storeInv_run (tr : List ReportOp) (db : DB) (h : StoreInv db) :
    StoreInv (run db tr) := by
  induction tr generalizing db with
  | nil => exact h
  | cons op rest ih => exact ih (step db op) (storeInv_step db op h)

/-- C4: starting from the empty store, after any sequence of
report-lifecycle requests, every report's history ledger has exactly
1 + (number of successful `set_status` calls on it) rows — the creation row
plus one per recorded transition, no-op transitions included — the first
row is the creation row (`old_status = none`, `new_status = NEW`), and each
later row's `old_status` equals the previous row's `new_status`. -/
theorem C4_report_history_ledger (tr : List ReportOp) (r : CrimeReport)
    (hr : r ∈ (run emptyDB tr).reports) :
    (historyOf (run emptyDB tr) r.id).length
        = 1 + succSetStatusCount emptyDB tr r.id
      ∧ (historyOf (run emptyDB tr) r.id).head?.map (fun e => e.old_status)
          = some none
      ∧ (historyOf (run emptyDB tr) r.id).head?.map (fun e => e.new_status)
          = some ReportStatus.NEW
      ∧ chainOk (historyOf (run emptyDB tr) r.id) = true := by
  have hInvE : StoreInv emptyDB := by
    refine ⟨?_, ?_, ?_⟩ <;> intro x hx <;> simp [emptyDB] at hx
  have hInv := storeInv_run tr emptyDB hInvE
  have hC := hInv.2.2 r hr
  have hcnt : createdCount emptyDB tr r.id = 1 := by
    rcases mem_run_created tr emptyDB r.id ⟨r, hr, rfl⟩ with h1 | h1
    · rcases h1 with ⟨x, hx, _⟩
      simp [emptyDB] at hx
    · exact Nat.le_antisymm (createdCount_le_one tr emptyDB r.id) h1
  have hlen := histLen_run tr emptyDB r.id
  have hemp : (historyOf emptyDB r.id).length = 0 := rfl
  refine ⟨?_, hC.2.1, hC.2.2.1, hC.2.2.2.1⟩
  rw [hlen, hemp, hcnt]
  omega

/-- C4 witness: a creation followed by two `set_status` calls (the second a
recorded no-op) yields a three-row, correctly chained ledger. -/
theorem C4_report_history_ledger_witness :
    (historyOf (run emptyDB traceC4) 0).length
        = 1 + succSetStatusCount emptyDB traceC4 0
      ∧ (historyOf (run emptyDB traceC4) 0).head?.map
          (fun e => e.old_status) = some none
      ∧ (historyOf (run emptyDB traceC4) 0).head?.map
          (fun e => e.new_status) = some ReportStatus.NEW
      ∧ chainOk (historyOf (run emptyDB traceC4) 0) = true :=
  C4_report_history_ledger traceC4 reportC4 (by decide)
